import Mathlib

/-!
Verification of the network-genealogy resolution core of
`packages/db/src/project/migrate/networkGenealogies.ts`.

The TypeScript source is shallowly embedded below:

* `collectArtifactNetworks` — the pure collector that filters invalid
  artifact networks, stable-sorts the rest by block height and builds the
  adjacent-pair genealogy links (source lines 133-186);
* `findMatchingCandidateOnChain` — serial chain verification of a candidate
  batch (source lines 292-311);
* `queryNextPossiblyRelatedNetworks` — one store query, with the source's
  try/catch that swallows a failure before dereferencing the absent result
  (source lines 243-284);
* `findRelation` — the unbounded query/verify loop, embedded with an
  explicit fuel parameter since the source loop has no internal bound
  (source lines 201-235);
* `generateNetworkGenealogiesLoad` — the orchestrator (source lines 56-115).

Effects are reified in the `Effect` type and every routine returns, next to
its result, the exact ordered trace of effects it issued. External
collaborators (the store and the chain client) are a `Driver` record of
response functions.
-/

namespace TruffleDb

/-- A point of chain history: opaque hash digest plus non-negative height. -/
structure Block where
  hash : String
  height : Nat
deriving DecidableEq

/-- Embeds `IdObject<DataModel.Network>`: a bare reference to a Network resource. -/
structure NetworkRef where
  id : String
deriving DecidableEq

/-- Embeds `DataModel.Network` as returned in candidate batches: identifier plus
recorded historic block. -/
structure Network where
  id : String
  historicBlock : Block
deriving DecidableEq

/-- Strip a resource down to its id reference (`toIdObject`). -/
def toIdObject (n : Network) : NetworkRef :=
  ⟨n.id⟩

/-- One artifact's network entry for a chain id: optional historic block and
optional `db.network` reference (absent `db` collapses to an absent
network reference, as in the source's destructuring defaults). -/
structure ArtifactNetwork where
  block : Option Block
  network : Option NetworkRef
deriving DecidableEq

/-- Embeds `DataModel.NetworkGenealogyInput`: one directed ancestor→descendant link. -/
structure NetworkGenealogyInput where
  ancestor : NetworkRef
  descendant : NetworkRef
deriving DecidableEq

/-- Result record of `collectArtifactNetworks`. -/
structure CollectArtifactNetworksResult where
  ancestor : NetworkRef
  descendant : NetworkRef
  networkGenealogies : List NetworkGenealogyInput
deriving DecidableEq

/-- The source filter predicate `block && network`: an entry survives only
with both a block and a network reference. -/
def isValid (a : ArtifactNetwork) : Bool :=
  a.block.isSome && a.network.isSome

/-- Accessor `a.block.height` as used by the sort comparator (entries reaching the
sort always have a block; absent blocks default to height 0). -/
def heightOf (a : ArtifactNetwork) : Nat :=
  match a.block with
  | some b => b.height
  | none => 0

/-- Projection `({db: {network}}) => network` on an entry that has a reference. -/
def refOf (a : ArtifactNetwork) : NetworkRef :=
  match a.network with
  | some n => n
  | none => ⟨""⟩

/-- Insert one entry into a height-sorted list, after all entries of equal
height (so that the overall sort is stable, as JavaScript `Array.sort`
with the comparator `a.block.height - b.block.height` is). -/
def insertByHeight (a : ArtifactNetwork) : List ArtifactNetwork → List ArtifactNetwork
  | [] => [a]
  | b :: rest =>
    if heightOf a ≤ heightOf b then a :: b :: rest else b :: insertByHeight a rest

/-- Stable sort by block height, ties kept in input order. -/
def sortByHeight : List ArtifactNetwork → List ArtifactNetwork
  | [] => []
  | a :: rest => insertByHeight a (sortByHeight rest)

/-- The collector's filter-then-sort pipeline: drop absent and invalid
entries, then sort the rest by height. -/
def validSorted (artifactNetworks : List (Option ArtifactNetwork)) : List ArtifactNetwork :=
  sortByHeight ((artifactNetworks.filterMap id).filter isValid)

/-- The source's reduce over `networks.slice(1)`: thread the current ancestor
and append one link per step. -/
def collectFold (first : NetworkRef) (rest : List NetworkRef) :
    NetworkRef × List NetworkGenealogyInput :=
  rest.foldl
    (fun acc descendant => (descendant, acc.2 ++ [⟨acc.1, descendant⟩]))
    (first, ([] : List NetworkGenealogyInput))

/-- Embeds `collectArtifactNetworks` (source lines 133-186): filter, stable-sort by
height, map to network references, then build pairwise links between
consecutive entries.  Returns `none` for a list with no valid inputs. -/
def collectArtifactNetworks (artifactNetworks : List (Option ArtifactNetwork)) :
    Option CollectArtifactNetworksResult :=
  let networks : List NetworkRef :=
    (validSorted artifactNetworks).filterMap ArtifactNetwork.network
  match networks with
  | [] => none
  | first :: rest =>
    some ⟨first, rest.getLastD first, (collectFold first rest).2⟩

/-- Heap model for the collector's array pipeline: `input` is the caller's
array (the `artifactNetworks` argument), `scratch` is the fresh array that
`.filter` allocates and that `.sort` then mutates in place. -/
structure CollectorHeap where
  input : List (Option ArtifactNetwork)
  scratch : Option (List ArtifactNetwork)
deriving DecidableEq

/-- The `.filter` stage: allocates a fresh array into `scratch`; the caller's
array is read but not written. -/
def filterStep (h : CollectorHeap) : CollectorHeap :=
  ⟨h.input, some ((h.input.filterMap id).filter isValid)⟩

/-- The `.sort` stage: mutates the scratch array in place; the caller's
array is untouched. -/
def sortInPlaceStep (h : CollectorHeap) : CollectorHeap :=
  ⟨h.input, h.scratch.map sortByHeight⟩

/-- The remainder of the collector after the array pipeline: map to network
references and fold up the adjacent links. -/
def finishCollect (sorted : List ArtifactNetwork) : Option CollectArtifactNetworksResult :=
  match sorted.filterMap ArtifactNetwork.network with
  | [] => none
  | first :: rest =>
    some ⟨first, rest.getLastD first, (collectFold first rest).2⟩

/-- Run the collector's two array stages on a heap holding the caller's
array. -/
def runCollectorHeap (l : List (Option ArtifactNetwork)) : CollectorHeap :=
  sortInPlaceStep (filterStep ⟨l, none⟩)

/-- Direction of a relation search. -/
inductive Relation where
  | ancestor
  | descendant
deriving DecidableEq

/-- Effect descriptors the resolution routines yield to the external driver:
a store relation query (`possibleAncestors` / `possibleDescendants` with an
exclusion list), a chain block lookup (`eth_getBlockByNumber` at a height,
transaction bodies never requested), and a store persist of genealogy
inputs (`resources.load`). -/
inductive Effect where
  | storeQuery (relation : Relation) (networkId : String) (alreadyTried : List String)
  | chainLookup (height : Nat)
  | persist (inputs : List NetworkGenealogyInput)
deriving DecidableEq

/-- Embeds `DataModel.CandidateSearchResult`: a candidate batch plus the updated
exclusion list. -/
structure CandidateSearchResult where
  networks : List Network
  alreadyTried : List String
deriving DecidableEq

/-- A JavaScript runtime failure surfacing from a routine: `typeError` for a
dereference of an absent value, `thrown` for a propagated thrown error. -/
inductive JsError where
  | typeError
  | thrown (message : String)
deriving DecidableEq

/-- The external driver executing effects: the store's relation query (which
may fail, modelled by `Except.error` carrying the thrown message), the chain
client's block-by-number lookup (`none` for an absent result), and the
store's load of genealogy inputs returning assigned identifiers. -/
structure Driver where
  possibleRelations : Relation → String → List String → Except String CandidateSearchResult
  getBlockByNumber : Nat → Option Block
  load : List NetworkGenealogyInput → List String

/-- Embeds `findMatchingCandidateOnChain` (source lines 292-311): walk the batch in
order, issue one chain lookup per candidate at its recorded height, and
return the first candidate whose recorded hash matches the chain's block
hash at that height. -/
def findMatchingCandidateOnChain (drv : Driver) :
    List Network → Option NetworkRef × List Effect
  | [] => (none, [])
  | candidate :: rest =>
    let lookup := Effect.chainLookup candidate.historicBlock.height
    match drv.getBlockByNumber candidate.historicBlock.height with
    | some result =>
      if result.hash == candidate.historicBlock.hash then
        (some (toIdObject candidate), [lookup])
      else
        let next := findMatchingCandidateOnChain drv rest
        (next.1, lookup :: next.2)
    | none =>
      let next := findMatchingCandidateOnChain drv rest
      (next.1, lookup :: next.2)

/-- Embeds `queryNextPossiblyRelatedNetworks` (source lines 243-284): issue one
store query.  A failure of the effect is caught and only logged, leaving
`result` absent; the immediately following `result.networks` dereference
then raises a TypeError. -/
def queryNextPossiblyRelatedNetworks (drv : Driver) (relation : Relation)
    (network : NetworkRef) (alreadyTried : List String) :
    Except JsError CandidateSearchResult × List Effect :=
  let issued := Effect.storeQuery relation network.id alreadyTried
  let result : Option CandidateSearchResult :=
    match drv.possibleRelations relation network.id alreadyTried with
    | Except.ok r => some r
    | Except.error _ => none
  match result with
  | some r => (Except.ok r, [issued])
  | none => (Except.error JsError.typeError, [issued])

/-- Outcome of a `findRelation` search: a confirmed related network, the
natural "no relation found" end, or a propagated JavaScript failure. -/
inductive FindOutcome where
  | found (network : NetworkRef)
  | noRelation
  | jsError (e : JsError)
deriving DecidableEq

/-- The do/while body of `findRelation` (source lines 214-232), with fuel
bounding the number of loop iterations (`none` in the first component means
the fuel ran out before the loop finished). -/
def findRelationLoop (drv : Driver) (relation : Relation) (network : NetworkRef) :
    Nat → List String → Option FindOutcome × List Effect
  | 0, _ => (none, [])
  | fuel + 1, alreadyTried =>
    match queryNextPossiblyRelatedNetworks drv relation network alreadyTried with
    | (Except.error e, qtrace) => (some (FindOutcome.jsError e), qtrace)
    | (Except.ok r, qtrace) =>
      let checked := findMatchingCandidateOnChain drv r.networks
      match checked.1 with
      | some matching => (some (FindOutcome.found matching), qtrace ++ checked.2)
      | none =>
        if r.networks.length > 0 then
          let next := findRelationLoop drv relation network fuel r.alreadyTried
          (next.1, qtrace ++ checked.2 ++ next.2)
        else
          (some FindOutcome.noRelation, qtrace ++ checked.2)

/-- Embeds `findRelation` (source lines 201-235): the iterative search, starting
from an empty `alreadyTried` exclusion list. -/
def findRelation (drv : Driver) (relation : Relation) (network : NetworkRef)
    (fuel : Nat) : Option FindOutcome × List Effect :=
  findRelationLoop drv relation network fuel []

/-- One artifact as the orchestrator sees it: an optional map from chain id
to an (optional) artifact network entry. -/
structure Artifact where
  networks : Option (List (String × Option ArtifactNetwork))

/-- Lookup `networks && networks[networkId]`: the artifact's entry for the chain id,
absent when the map is absent, the key is missing, or the value is absent. -/
def lookupNetwork (networkId : String) (artifact : Artifact) : Option ArtifactNetwork :=
  match artifact.networks with
  | none => none
  | some m =>
    match m.lookup networkId with
    | some v => v
    | none => none

/-- The orchestrator's filter-and-map over artifacts (source lines 78-80). -/
def artifactNetworksOf (networkId : String) (artifacts : List Artifact) :
    List (Option ArtifactNetwork) :=
  (artifacts.filter (fun a => (lookupNetwork networkId a).isSome)).map
    (lookupNetwork networkId)

/-- The orchestrator after the ancestor-direction search: run the
descendant-direction search anchored at the collected descendant, append its
link when found, then persist all accumulated links (source lines 104-114). -/
def orchestratorPhase2 (drv : Driver) (fuel : Nat) (descendant : NetworkRef)
    (links : List NetworkGenealogyInput) :
    Option (Except JsError (List String)) × List Effect :=
  match findRelation drv Relation.descendant descendant fuel with
  | (none, t2) => (none, t2)
  | (some (FindOutcome.jsError e), t2) => (some (Except.error e), t2)
  | (some (FindOutcome.found descendantDescendant), t2) =>
    let finalLinks := links ++ [⟨descendant, descendantDescendant⟩]
    (some (Except.ok (drv.load finalLinks)), t2 ++ [Effect.persist finalLinks])
  | (some FindOutcome.noRelation, t2) =>
    (some (Except.ok (drv.load links)), t2 ++ [Effect.persist links])

/-- Embeds `generateNetworkGenealogiesLoad` (source lines 56-115): filter artifacts
to the connected chain id, collect the linear chain, extend it by one
relation search in each direction, and persist the accumulated links.  When
the collector yields no networks the source destructures `undefined`, which
raises a TypeError before any effect is issued. -/
def generateNetworkGenealogiesLoad (drv : Driver) (fuel : Nat) (networkId : String)
    (artifacts : List Artifact) : Option (Except JsError (List String)) × List Effect :=
  match collectArtifactNetworks (artifactNetworksOf networkId artifacts) with
  | none => (some (Except.error JsError.typeError), [])
  | some collected =>
    match findRelation drv Relation.ancestor collected.ancestor fuel with
    | (none, t1) => (none, t1)
    | (some (FindOutcome.jsError e), t1) => (some (Except.error e), t1)
    | (some (FindOutcome.found ancestorAncestor), t1) =>
      let p := orchestratorPhase2 drv fuel collected.descendant
        (collected.networkGenealogies ++ [⟨ancestorAncestor, collected.ancestor⟩])
      (p.1, t1 ++ p.2)
    | (some FindOutcome.noRelation, t1) =>
      let p := orchestratorPhase2 drv fuel collected.descendant collected.networkGenealogies
      (p.1, t1 ++ p.2)

/-- Chain confirmation of one candidate: the chain's block at the candidate's
recorded height exists and its hash equals the candidate's recorded hash. -/
def confirms (drv : Driver) (c : Network) : Bool :=
  match drv.getBlockByNumber c.historicBlock.height with
  | some result => result.hash == c.historicBlock.hash
  | none => false

/-- Links between consecutive elements, threading the running ancestor:
the specification-side description of the collector's reduce. -/
def adjLinksFrom (a : NetworkRef) : List NetworkRef → List NetworkGenealogyInput
  | [] => []
  | b :: rest => ⟨a, b⟩ :: adjLinksFrom b rest

/-- The `alreadyTried` arguments of the store-query effects of a trace, in
order of issue. -/
def storeTrieds (trace : List Effect) : List (List String) :=
  trace.filterMap (fun e =>
    match e with
    | Effect.storeQuery _ _ tried => some tried
    | _ => none)

/-- One store-query step: the second exclusion list is exactly the
`alreadyTried` the store returned for the first. -/
def queryStep (drv : Driver) (relation : Relation) (networkId : String)
    (t u : List String) : Prop :=
  ∃ r, drv.possibleRelations relation networkId t = Except.ok r ∧ u = r.alreadyTried

/-- The exclusion list after one successful store query (unchanged on a
store failure, which aborts the search anyway). -/
def stepTried (drv : Driver) (relation : Relation) (networkId : String)
    (tried : List String) : List String :=
  match drv.possibleRelations relation networkId tried with
  | Except.ok r => r.alreadyTried
  | Except.error _ => tried

/-- The exclusion list reached after `k` store queries starting from `tried`. -/
def triedFrom (drv : Driver) (relation : Relation) (networkId : String) :
    List String → Nat → List String
  | tried, 0 => tried
  | tried, k + 1 => triedFrom drv relation networkId (stepTried drv relation networkId tried) k

/-- The loop's exit condition holds at exclusion list `tried`: the store
answers with a batch that is empty or contains a chain-confirmed candidate. -/
def terminatesAt (drv : Driver) (relation : Relation) (network : NetworkRef)
    (tried : List String) : Prop :=
  ∃ r, drv.possibleRelations relation network.id tried = Except.ok r ∧
    (r.networks = [] ∨ ∃ c ∈ r.networks, confirms drv c = true)

/-- View of a finished relation search as the optional network it found. -/
def relationOutcome : Option NetworkRef → FindOutcome
  | some n => FindOutcome.found n
  | none => FindOutcome.noRelation

/-- The orchestrator's accumulated link set: the collector's links, then the
ancestor-direction link when found, then the descendant-direction link when
found. -/
def extendLinks (collected : CollectArtifactNetworksResult)
    (ancestorAncestor descendantDescendant : Option NetworkRef) :
    List NetworkGenealogyInput :=
  collected.networkGenealogies
    ++ (ancestorAncestor.map
        (fun a => (⟨a, collected.ancestor⟩ : NetworkGenealogyInput))).toList
    ++ (descendantDescendant.map
        (fun d => (⟨collected.descendant, d⟩ : NetworkGenealogyInput))).toList

/-! Concrete fixtures used by the witness theorems. -/

/-- Observation at height 10 of network `A`. -/
def wA : ArtifactNetwork := ⟨some ⟨"hashA", 10⟩, some ⟨"A"⟩⟩

/-- Observation at height 20 of network `B`. -/
def wB : ArtifactNetwork := ⟨some ⟨"hashB", 20⟩, some ⟨"B"⟩⟩

/-- Observation at height 15 of network `C`. -/
def wC : ArtifactNetwork := ⟨some ⟨"hashC", 15⟩, some ⟨"C"⟩⟩

/-- A singleton-valid input: one absent entry, one invalid entry, one valid
observation of network `n7`. -/
def singletonInput : List (Option ArtifactNetwork) :=
  [none, some ⟨none, none⟩, some ⟨some ⟨"hash7", 7⟩, some ⟨"n7"⟩⟩]

/-- Artifacts whose only entry for chain id `5777` lacks a historic block:
every observation is invalid, so the collector yields no networks. -/
def invalidArtifacts : List Artifact :=
  [⟨some [("5777", some ⟨none, some ⟨"n1"⟩⟩)]⟩, ⟨none⟩, ⟨some []⟩]

/-- Two artifacts with valid observations of networks `A` and `B` on chain
id `1`. -/
def happyArtifacts : List Artifact :=
  [⟨some [("1", some wA)]⟩, ⟨some [("1", some wB)]⟩]

/-- The collector's result on `happyArtifacts`. -/
def collectedHappy : CollectArtifactNetworksResult :=
  ⟨⟨"A"⟩, ⟨"B"⟩, [⟨⟨"A"⟩, ⟨"B"⟩⟩]⟩

/-- A driver whose store always answers with an empty batch, whose chain has
no blocks, and whose load assigns `gid` per input. -/
def drvEmpty : Driver where
  possibleRelations := fun _ _ tried => Except.ok ⟨[], tried⟩
  getBlockByNumber := fun _ => none
  load := fun inputs => inputs.map (fun _ => "gid")

/-- A driver whose store-query effect always fails. -/
def drvFail : Driver where
  possibleRelations := fun _ _ _ => Except.error "store offline"
  getBlockByNumber := fun _ => none
  load := fun _ => []

/-- A driver that offers one unconfirmable candidate on the first query and
an empty batch afterwards, growing `alreadyTried` accordingly. -/
def drvGrow : Driver where
  possibleRelations := fun _ _ tried =>
    if tried.isEmpty then Except.ok ⟨[⟨"c1", ⟨"x", 1⟩⟩], ["c1"]⟩
    else Except.ok ⟨[], tried⟩
  getBlockByNumber := fun _ => none
  load := fun _ => []

/-- A driver that forever offers the same unconfirmable candidate without
growing `alreadyTried`: the search loop never exits. -/
def drvLoop : Driver where
  possibleRelations := fun _ _ tried => Except.ok ⟨[⟨"c", ⟨"h", 9⟩⟩], tried⟩
  getBlockByNumber := fun _ => none
  load := fun _ => []

/-- Candidate at height 5 whose recorded hash the chain does not confirm
(under `drvTwo`). -/
def cand5 : Network := ⟨"c5", ⟨"hash5", 5⟩⟩

/-- Candidate at height 3 whose recorded hash the chain confirms (under
`drvTwo`). -/
def cand3 : Network := ⟨"c3", ⟨"hash3", 3⟩⟩

/-- A chain driver confirming exactly the block `hash3` at height 3. -/
def drvTwo : Driver where
  possibleRelations := fun _ _ tried => Except.ok ⟨[], tried⟩
  getBlockByNumber := fun h => if h == 3 then some ⟨"hash3", 3⟩ else some ⟨"misc", h⟩
  load := fun _ => []

/-! Helper lemmas about the collector's sort. -/

theorem insertByHeight_perm (a : ArtifactNetwork) (l : List ArtifactNetwork) :
    List.Perm (insertByHeight a l) (a :: l) := by
  induction l with
  | nil => exact List.Perm.refl _
  | cons b rest ih =>
    simp only [insertByHeight]
    split
    · exact List.Perm.refl _
    · exact List.Perm.trans (List.Perm.cons b ih) (List.Perm.swap a b rest)

theorem sortByHeight_perm (l : List ArtifactNetwork) :
    List.Perm (sortByHeight l) l := by
  induction l with
  | nil => exact List.Perm.refl _
  | cons a rest ih =>
    exact List.Perm.trans (insertByHeight_perm a (sortByHeight rest)) (List.Perm.cons a ih)

theorem sortByHeight_length (l : List ArtifactNetwork) :
    (sortByHeight l).length = l.length :=
  (sortByHeight_perm l).length_eq

theorem mem_sortByHeight {x : ArtifactNetwork} {l : List ArtifactNetwork} :
    x ∈ sortByHeight l ↔ x ∈ l :=
  (sortByHeight_perm l).mem_iff

theorem pairwise_insertByHeight (a : ArtifactNetwork) {l : List ArtifactNetwork}
    (h : l.Pairwise (fun x y => heightOf x ≤ heightOf y)) :
    (insertByHeight a l).Pairwise (fun x y => heightOf x ≤ heightOf y) := by
  induction l with
  | nil => simp [insertByHeight]
  | cons b rest ih =>
    rcases List.pairwise_cons.mp h with ⟨hb, hrest⟩
    simp only [insertByHeight]
    split
    · rename_i hab
      refine List.pairwise_cons.mpr ⟨?_, h⟩
      intro y hy
      rcases List.mem_cons.mp hy with hy | hy
      · exact hy ▸ hab
      · exact le_trans hab (hb y hy)
    · rename_i hab
      have hba : heightOf b ≤ heightOf a := le_of_lt (lt_of_not_le hab)
      refine List.pairwise_cons.mpr ⟨?_, ih hrest⟩
      intro y hy
      rcases List.mem_cons.mp ((insertByHeight_perm a rest).mem_iff.mp hy) with hy | hy
      · exact hy ▸ hba
      · exact hb y hy

theorem sortByHeight_sorted (l : List ArtifactNetwork) :
    (sortByHeight l).Pairwise (fun x y => heightOf x ≤ heightOf y) := by
  induction l with
  | nil => simp [sortByHeight]
  | cons a rest ih => exact pairwise_insertByHeight a ih

theorem filterMap_network_eq_map {l : List ArtifactNetwork}
    (h : ∀ a ∈ l, a.network.isSome) :
    l.filterMap ArtifactNetwork.network = l.map refOf := by
  induction l with
  | nil => rfl
  | cons a rest ih =>
    rcases Option.isSome_iff_exists.mp (h a (List.mem_cons_self a rest)) with ⟨n, hn⟩
    have hrest := ih (fun x hx => h x (List.mem_cons_of_mem a hx))
    simp [List.filterMap_cons, hn, refOf, hrest]

theorem collectFold_snd (first : NetworkRef) (rest : List NetworkRef) :
    (collectFold first rest).2 = adjLinksFrom first rest := by
  suffices h : ∀ (l : List NetworkRef) (a : NetworkRef) (gs : List NetworkGenealogyInput),
      (l.foldl (fun acc descendant => (descendant, acc.2 ++ [⟨acc.1, descendant⟩]))
        (a, gs)).2 = gs ++ adjLinksFrom a l by
    simpa [collectFold] using h rest first []
  intro l
  induction l with
  | nil => intro a gs; simp [adjLinksFrom]
  | cons b t ih =>
    intro a gs
    simp [List.foldl_cons, ih, adjLinksFrom]

theorem adjLinksFrom_map (f : ArtifactNetwork → NetworkRef) :
    ∀ (xs : List ArtifactNetwork) (x : ArtifactNetwork),
      adjLinksFrom (f x) (xs.map f) =
        ((x :: xs).zip xs).map (fun p => ⟨f p.1, f p.2⟩) := by
  intro xs
  induction xs with
  | nil => intro x; rfl
  | cons y ys ih =>
    intro x
    simp only [List.map_cons, adjLinksFrom, List.zip_cons_cons]
    exact congrArg _ (ih y)

theorem pairwise_adjacent {R : ArtifactNetwork → ArtifactNetwork → Prop} :
    ∀ {l : List ArtifactNetwork}, l.Pairwise R → ∀ p ∈ l.zip l.tail, R p.1 p.2 := by
  intro l
  induction l with
  | nil => intro _ p hp; simp at hp
  | cons a t ih =>
    intro h p hp
    cases t with
    | nil => simp at hp
    | cons b t2 =>
      rcases List.pairwise_cons.mp h with ⟨ha, ht⟩
      simp only [List.tail_cons, List.zip_cons_cons, List.mem_cons] at hp
      rcases hp with hp | hp
      · subst hp; exact ha b (List.mem_cons_self b t2)
      · exact ih ht p hp

/-- Claim C1: for a collection of valid observations on one chain (each with
a block and a network reference, distinct networks sitting at pairwise
distinct heights, as one totally-ordered chain history forces), the
collector's links are exactly the adjacent pairs of the height-sorted
sequence — `n - 1` links for `n` networks, never the pairwise closure — and
every link's ancestor sits at a strictly smaller height than its
descendant. -/
theorem collectArtifactNetworks_links_adjacent (l : List ArtifactNetwork)
    (hne : l ≠ [])
    (hv : ∀ a ∈ l, isValid a = true)
    (hh : (l.map heightOf).Pairwise (fun x y => x ≠ y)) :
    ∃ r, collectArtifactNetworks (l.map some) = some r ∧
      r.networkGenealogies =
        ((sortByHeight l).zip (sortByHeight l).tail).map
          (fun p => ⟨refOf p.1, refOf p.2⟩) ∧
      r.networkGenealogies.length = l.length - 1 ∧
      ∀ p ∈ (sortByHeight l).zip (sortByHeight l).tail,
        heightOf p.1 < heightOf p.2 := by
  have hfm : (l.map some).filterMap id = l := by
    simp [List.filterMap_map, Function.comp]
  have hfl : l.filter isValid = l := List.filter_eq_self.mpr hv
  have hvs : validSorted (l.map some) = sortByHeight l := by
    simp [validSorted, hfm, hfl]
  have hmemnet : ∀ a ∈ sortByHeight l, a.network.isSome := by
    intro a ha
    have hva := hv a (mem_sortByHeight.mp ha)
    simp only [isValid, Bool.and_eq_true] at hva
    exact hva.2
  have hnet : (sortByHeight l).filterMap ArtifactNetwork.network =
      (sortByHeight l).map refOf := filterMap_network_eq_map hmemnet
  -- strict ordering of adjacent heights in the sorted list
  have hsortedle := sortByHeight_sorted l
  have hperm : List.Perm ((sortByHeight l).map heightOf) (l.map heightOf) :=
    (sortByHeight_perm l).map heightOf
  have hne' : ((sortByHeight l).map heightOf).Pairwise (fun x y => x ≠ y) :=
    (hperm.pairwise_iff (fun {_ _} h => h.symm)).mpr hh
  have hne'' : (sortByHeight l).Pairwise (fun x y => heightOf x ≠ heightOf y) :=
    List.pairwise_map.mp hne'
  have hlt : (sortByHeight l).Pairwise (fun x y => heightOf x < heightOf y) :=
    (hsortedle.and hne'').imp (fun h => lt_of_le_of_ne h.1 h.2)
  have hadj : ∀ p ∈ (sortByHeight l).zip (sortByHeight l).tail,
      heightOf p.1 < heightOf p.2 := pairwise_adjacent hlt
  -- the sorted list is nonempty
  have hlen : (sortByHeight l).length = l.length := sortByHeight_length l
  cases hs : sortByHeight l with
  | nil =>
    exfalso
    apply hne
    have : l.length = 0 := by rw [← hlen, hs]; rfl
    exact List.length_eq_zero.mp this
  | cons e s2 =>
    have hnets : (validSorted (l.map some)).filterMap ArtifactNetwork.network
        = refOf e :: s2.map refOf := by
      rw [hvs, hnet, hs, List.map_cons]
    have hcollect : collectArtifactNetworks (l.map some) =
        some ⟨refOf e, (s2.map refOf).getLastD (refOf e),
          (collectFold (refOf e) (s2.map refOf)).2⟩ := by
      simp only [collectArtifactNetworks, hnets]
    have hlinks : (collectFold (refOf e) (s2.map refOf)).2 =
        ((e :: s2).zip s2).map
          (fun p => (⟨refOf p.1, refOf p.2⟩ : NetworkGenealogyInput)) := by
      rw [collectFold_snd, adjLinksFrom_map refOf s2 e]
    have hs2len : s2.length + 1 = l.length := by
      rw [← hlen, hs]; rfl
    rw [hs] at hadj
    refine ⟨_, hcollect, ?_, ?_, hadj⟩
    · simpa using hlinks
    · show (collectFold (refOf e) (s2.map refOf)).2.length = l.length - 1
      rw [hlinks]
      simp only [List.length_map, List.length_zip, List.length_cons]
      omega

/-- Witness for C1 at the spec's concrete scenario (heights 10, 20, 15). -/
theorem collectArtifactNetworks_links_adjacent_witness :
    ∃ r, collectArtifactNetworks [some wA, some wB, some wC] = some r ∧
      r.networkGenealogies =
        ((sortByHeight [wA, wB, wC]).zip (sortByHeight [wA, wB, wC]).tail).map
          (fun p => ⟨refOf p.1, refOf p.2⟩) ∧
      r.networkGenealogies.length = 2 ∧
      ∀ p ∈ (sortByHeight [wA, wB, wC]).zip (sortByHeight [wA, wB, wC]).tail,
        heightOf p.1 < heightOf p.2 := by
  have h := collectArtifactNetworks_links_adjacent [wA, wB, wC]
    (by decide) (by decide) (by decide)
  simpa using h

/-- Claim C8: an input whose only valid observation is a single entry makes
the collector return that entry's network as both ancestor and descendant,
with no links. -/
theorem collectArtifactNetworks_singleton (l : List (Option ArtifactNetwork))
    (a : ArtifactNetwork) (r : NetworkRef)
    (hfilter : (l.filterMap id).filter isValid = [a])
    (hr : a.network = some r) :
    collectArtifactNetworks l = some ⟨r, r, []⟩ := by
  simp [collectArtifactNetworks, validSorted, hfilter, sortByHeight, insertByHeight,
    List.filterMap_cons, hr, collectFold]

/-- Witness for C8: one absent entry, one invalid entry, one valid
observation. -/
theorem collectArtifactNetworks_singleton_witness :
    collectArtifactNetworks singletonInput = some ⟨⟨"n7"⟩, ⟨"n7"⟩, []⟩ :=
  collectArtifactNetworks_singleton singletonInput
    ⟨some ⟨"hash7", 7⟩, some ⟨"n7"⟩⟩ ⟨"n7"⟩ (by decide) (by decide)

/-- Claim C9: the collector does not mutate its input.  In the heap model of
the source's array pipeline — `.filter` allocates a fresh scratch array and
`.sort` mutates only that scratch array in place — the caller's array after
both stages is element-for-element the list passed in, while the scratch
array carries the collector's computation (finishing it from the scratch
array yields exactly `collectArtifactNetworks`). -/
theorem collectArtifactNetworks_no_input_mutation (l : List (Option ArtifactNetwork)) :
    (runCollectorHeap l).input = l ∧
    (runCollectorHeap l).scratch = some (validSorted l) ∧
    Option.bind (runCollectorHeap l).scratch finishCollect = collectArtifactNetworks l :=
  ⟨rfl, rfl, rfl⟩

/-- Claim C2 (code bug): on an input whose observations are all absent or
invalid, the collector does signal "no networks" (`none`) and no effect is
issued, but the orchestrator then destructures the absent collector result
and raises a TypeError instead of returning normally as a no-op. -/
theorem generateNetworkGenealogiesLoad_crashes_on_all_invalid :
    collectArtifactNetworks (artifactNetworksOf "5777" invalidArtifacts) = none ∧
    generateNetworkGenealogiesLoad drvEmpty 3 "5777" invalidArtifacts =
      (some (Except.error JsError.typeError), []) :=
  ⟨rfl, rfl⟩

/-! Helper lemmas for the relation finder. -/

theorem findMatching_eq (drv : Driver) (cs : List Network) :
    findMatchingCandidateOnChain drv cs =
      ((cs.find? (confirms drv)).map toIdObject,
       (cs.takeWhile (fun c => ! confirms drv c)
          ++ (cs.find? (confirms drv)).toList).map
         (fun c => Effect.chainLookup c.historicBlock.height)) := by
  induction cs with
  | nil => rfl
  | cons c rest ih =>
    cases hblk : drv.getBlockByNumber c.historicBlock.height with
    | some result =>
      by_cases hhash : result.hash == c.historicBlock.hash
      · have hc : confirms drv c = true := by simp [confirms, hblk, hhash]
        simp [findMatchingCandidateOnChain, hblk, hhash, List.find?_cons, hc,
          List.takeWhile_cons]
      · have hc : confirms drv c = false := by
          simp only [confirms, hblk]
          exact Bool.of_not_eq_true hhash
        simp [findMatchingCandidateOnChain, hblk, hhash, List.find?_cons, hc,
          List.takeWhile_cons, ih]
    | none =>
      have hc : confirms drv c = false := by simp [confirms, hblk]
      simp [findMatchingCandidateOnChain, hblk, List.find?_cons, hc,
        List.takeWhile_cons, ih]

/-- Claim C3: in every candidate batch, verification is strictly serial in
store order — one chain-lookup effect per checked candidate at its recorded
height, confirmation exactly when the chain's hash equals the recorded hash
(`confirms`), the result being the first confirmed candidate, with lookups
issued precisely for the unconfirmed prefix plus that first confirmed
candidate and for no later candidate. -/
theorem findMatchingCandidateOnChain_serial_first_match (drv : Driver)
    (candidates : List Network) :
    (findMatchingCandidateOnChain drv candidates).1 =
      (candidates.find? (confirms drv)).map toIdObject ∧
    (findMatchingCandidateOnChain drv candidates).2 =
      (candidates.takeWhile (fun c => ! confirms drv c)
          ++ (candidates.find? (confirms drv)).toList).map
        (fun c => Effect.chainLookup c.historicBlock.height) := by
  rw [findMatching_eq]
  exact ⟨rfl, rfl⟩

/-- Claim C4: a failed store-query effect is caught and logged, after which
the routine dereferences the absent result: the step ends in a TypeError,
never in a propagation of the thrown store error, and the surrounding search
aborts with that TypeError (no recovery path). -/
theorem queryNext_store_failure_typeError (drv : Driver) (rel : Relation)
    (network : NetworkRef) (tried : List String) (message : String)
    (h : drv.possibleRelations rel network.id tried = Except.error message) :
    queryNextPossiblyRelatedNetworks drv rel network tried =
      (Except.error JsError.typeError, [Effect.storeQuery rel network.id tried]) ∧
    (∀ m, (queryNextPossiblyRelatedNetworks drv rel network tried).1 ≠
        Except.error (JsError.thrown m)) ∧
    ∀ fuel, findRelationLoop drv rel network (fuel + 1) tried =
      (some (FindOutcome.jsError JsError.typeError),
       [Effect.storeQuery rel network.id tried]) := by
  have hq : queryNextPossiblyRelatedNetworks drv rel network tried =
      (Except.error JsError.typeError, [Effect.storeQuery rel network.id tried]) := by
    simp [queryNextPossiblyRelatedNetworks, h]
  refine ⟨hq, ?_, ?_⟩
  · intro m
    rw [hq]
    simp
  · intro fuel
    simp [findRelationLoop, hq]

/-- Witness for C4 at a driver whose store always fails. -/
theorem queryNext_store_failure_typeError_witness :
    queryNextPossiblyRelatedNetworks drvFail Relation.ancestor ⟨"n"⟩ [] =
      (Except.error JsError.typeError,
       [Effect.storeQuery Relation.ancestor "n" []]) ∧
    findRelationLoop drvFail Relation.ancestor ⟨"n"⟩ 1 [] =
      (some (FindOutcome.jsError JsError.typeError),
       [Effect.storeQuery Relation.ancestor "n" []]) := by
  have h := queryNext_store_failure_typeError drvFail Relation.ancestor ⟨"n"⟩ []
    "store offline" rfl
  exact ⟨h.1, h.2.2 0⟩

/-- Claim C5: whenever the store returns an empty candidate batch, the search
ends with "no relation found" (not an error); when the very first batch is
empty, the finder returns no relation having issued exactly one store query
and no chain lookup. -/
theorem findRelation_empty_batch_no_relation (drv : Driver) (rel : Relation)
    (network : NetworkRef) (fuel : Nat) (tried updated : List String)
    (h : drv.possibleRelations rel network.id tried = Except.ok ⟨[], updated⟩) :
    findRelationLoop drv rel network (fuel + 1) tried =
      (some FindOutcome.noRelation, [Effect.storeQuery rel network.id tried]) ∧
    (tried = [] →
      findRelation drv rel network (fuel + 1) =
        (some FindOutcome.noRelation, [Effect.storeQuery rel network.id []]) ∧
      ∀ height, Effect.chainLookup height ∉
        (findRelation drv rel network (fuel + 1)).2) := by
  have hloop : findRelationLoop drv rel network (fuel + 1) tried =
      (some FindOutcome.noRelation, [Effect.storeQuery rel network.id tried]) := by
    simp [findRelationLoop, queryNextPossiblyRelatedNetworks, h,
      findMatchingCandidateOnChain]
  refine ⟨hloop, ?_⟩
  intro htried
  subst htried
  refine ⟨hloop, ?_⟩
  intro height
  rw [show findRelation drv rel network (fuel + 1) =
    findRelationLoop drv rel network (fuel + 1) [] from rfl, hloop]
  simp

/-- Witness for C5 at a driver whose first batch is empty. -/
theorem findRelation_empty_batch_no_relation_witness :
    findRelation drvEmpty Relation.descendant ⟨"n"⟩ 1 =
      (some FindOutcome.noRelation,
       [Effect.storeQuery Relation.descendant "n" []]) ∧
    ∀ height, Effect.chainLookup height ∉
      (findRelation drvEmpty Relation.descendant ⟨"n"⟩ 1).2 := by
  have h := findRelation_empty_batch_no_relation drvEmpty Relation.descendant
    ⟨"n"⟩ 0 [] [] rfl
  exact h.2 rfl

/-! Reduction lemmas for one iteration of the search loop. -/

theorem loop_succ_error (drv : Driver) (rel : Relation) (network : NetworkRef)
    (fuel : Nat) (tried : List String) (msg : String)
    (hq : drv.possibleRelations rel network.id tried = Except.error msg) :
    findRelationLoop drv rel network (fuel + 1) tried =
      (some (FindOutcome.jsError JsError.typeError),
       [Effect.storeQuery rel network.id tried]) := by
  simp [findRelationLoop, queryNextPossiblyRelatedNetworks, hq]

theorem loop_succ_found (drv : Driver) (rel : Relation) (network : NetworkRef)
    (fuel : Nat) (tried : List String) (r : CandidateSearchResult) (m : NetworkRef)
    (hq : drv.possibleRelations rel network.id tried = Except.ok r)
    (hm : (findMatchingCandidateOnChain drv r.networks).1 = some m) :
    findRelationLoop drv rel network (fuel + 1) tried =
      (some (FindOutcome.found m),
       Effect.storeQuery rel network.id tried ::
         (findMatchingCandidateOnChain drv r.networks).2) := by
  simp [findRelationLoop, queryNextPossiblyRelatedNetworks, hq, hm]

theorem loop_succ_empty (drv : Driver) (rel : Relation) (network : NetworkRef)
    (fuel : Nat) (tried : List String) (r : CandidateSearchResult)
    (hq : drv.possibleRelations rel network.id tried = Except.ok r)
    (hn : r.networks = []) :
    findRelationLoop drv rel network (fuel + 1) tried =
      (some FindOutcome.noRelation, [Effect.storeQuery rel network.id tried]) := by
  simp [findRelationLoop, queryNextPossiblyRelatedNetworks, hq, hn,
    findMatchingCandidateOnChain]

theorem loop_succ_next (drv : Driver) (rel : Relation) (network : NetworkRef)
    (fuel : Nat) (tried : List String) (r : CandidateSearchResult)
    (hq : drv.possibleRelations rel network.id tried = Except.ok r)
    (hm : (findMatchingCandidateOnChain drv r.networks).1 = none)
    (hn : r.networks ≠ []) :
    findRelationLoop drv rel network (fuel + 1) tried =
      ((findRelationLoop drv rel network fuel r.alreadyTried).1,
       Effect.storeQuery rel network.id tried ::
         ((findMatchingCandidateOnChain drv r.networks).2 ++
          (findRelationLoop drv rel network fuel r.alreadyTried).2)) := by
  have hlen : 0 < r.networks.length := List.length_pos.mpr hn
  simp [findRelationLoop, queryNextPossiblyRelatedNetworks, hq, hm, hlen,
    List.append_assoc]

/-! Helper lemmas about store-query exclusion lists in a trace. -/

theorem storeTrieds_cons_query (rel : Relation) (networkId : String)
    (tried : List String) (trace : List Effect) :
    storeTrieds (Effect.storeQuery rel networkId tried :: trace) =
      tried :: storeTrieds trace := by
  simp [storeTrieds, List.filterMap_cons]

theorem storeTrieds_append (t1 t2 : List Effect) :
    storeTrieds (t1 ++ t2) = storeTrieds t1 ++ storeTrieds t2 := by
  simp [storeTrieds, List.filterMap_append]

theorem storeTrieds_findMatching (drv : Driver) (cs : List Network) :
    storeTrieds (findMatchingCandidateOnChain drv cs).2 = [] := by
  rw [findMatching_eq]
  simp [storeTrieds, List.filterMap_map, Function.comp]

theorem storeTrieds_loop (drv : Driver) (rel : Relation) (network : NetworkRef) :
    ∀ (fuel : Nat) (tried : List String),
      (storeTrieds (findRelationLoop drv rel network fuel tried).2 = [] ∨
        ∃ rest, storeTrieds (findRelationLoop drv rel network fuel tried).2 =
          tried :: rest) ∧
      List.Chain' (queryStep drv rel network.id)
        (storeTrieds (findRelationLoop drv rel network fuel tried).2) := by
  intro fuel
  induction fuel with
  | zero => intro tried; simp [findRelationLoop, storeTrieds]
  | succ fuel ih =>
    intro tried
    cases hq : drv.possibleRelations rel network.id tried with
    | error msg =>
      rw [loop_succ_error drv rel network fuel tried msg hq]
      rw [show ((some (FindOutcome.jsError JsError.typeError),
        [Effect.storeQuery rel network.id tried]) :
          Option FindOutcome × List Effect).2 =
        [Effect.storeQuery rel network.id tried] from rfl]
      rw [show ([Effect.storeQuery rel network.id tried] : List Effect) =
        Effect.storeQuery rel network.id tried :: [] from rfl,
        storeTrieds_cons_query]
      exact ⟨Or.inr ⟨storeTrieds [], rfl⟩, by simp [storeTrieds]⟩
    | ok r =>
      cases hm : (findMatchingCandidateOnChain drv r.networks).1 with
      | some m =>
        rw [loop_succ_found drv rel network fuel tried r m hq hm]
        have : storeTrieds (Effect.storeQuery rel network.id tried ::
            (findMatchingCandidateOnChain drv r.networks).2) = [tried] := by
          rw [storeTrieds_cons_query, storeTrieds_findMatching]
        rw [show ((some (FindOutcome.found m),
          Effect.storeQuery rel network.id tried ::
            (findMatchingCandidateOnChain drv r.networks).2) :
            Option FindOutcome × List Effect).2 =
          Effect.storeQuery rel network.id tried ::
            (findMatchingCandidateOnChain drv r.networks).2 from rfl, this]
        exact ⟨Or.inr ⟨[], rfl⟩, List.chain'_singleton tried⟩
      | none =>
        by_cases hnet : r.networks = []
        · rw [loop_succ_empty drv rel network fuel tried r hq hnet]
          rw [show ((some FindOutcome.noRelation,
            [Effect.storeQuery rel network.id tried]) :
              Option FindOutcome × List Effect).2 =
            Effect.storeQuery rel network.id tried :: [] from rfl,
            storeTrieds_cons_query]
          exact ⟨Or.inr ⟨storeTrieds [], rfl⟩, by simp [storeTrieds]⟩
        · rw [loop_succ_next drv rel network fuel tried r hq hm hnet]
          have hred : storeTrieds (Effect.storeQuery rel network.id tried ::
              ((findMatchingCandidateOnChain drv r.networks).2 ++
               (findRelationLoop drv rel network fuel r.alreadyTried).2)) =
              tried :: storeTrieds
                (findRelationLoop drv rel network fuel r.alreadyTried).2 := by
            rw [storeTrieds_cons_query, storeTrieds_append, storeTrieds_findMatching,
              List.nil_append]
          rw [show (((findRelationLoop drv rel network fuel r.alreadyTried).1,
            Effect.storeQuery rel network.id tried ::
              ((findMatchingCandidateOnChain drv r.networks).2 ++
               (findRelationLoop drv rel network fuel r.alreadyTried).2)) :
              Option FindOutcome × List Effect).2 =
            Effect.storeQuery rel network.id tried ::
              ((findMatchingCandidateOnChain drv r.networks).2 ++
               (findRelationLoop drv rel network fuel r.alreadyTried).2) from rfl,
            hred]
          obtain ⟨hcase, hchain⟩ := ih r.alreadyTried
          refine ⟨Or.inr ⟨_, rfl⟩, ?_⟩
          rw [List.chain'_cons']
          refine ⟨?_, hchain⟩
          intro u hu
          rcases hcase with hnil | ⟨rest, hrest⟩
          · rw [hnil] at hu; simp at hu
          · rw [hrest] at hu
            simp only [List.head?_cons, Option.mem_def, Option.some.injEq] at hu
            subst hu
            exact ⟨r, hq, rfl⟩

/-- Claim C6: within one search the exclusion set starts empty, each
subsequent store-query effect carries verbatim the `alreadyTried` the store
returned for the previous query (`queryStep`), and therefore under the
store's superset guarantee the exclusion set never shrinks across
iterations. -/
theorem findRelation_alreadyTried_threaded (drv : Driver) (rel : Relation)
    (network : NetworkRef) (fuel : Nat) :
    (storeTrieds (findRelation drv rel network fuel).2 = [] ∨
      ∃ rest, storeTrieds (findRelation drv rel network fuel).2 = [] :: rest) ∧
    List.Chain' (queryStep drv rel network.id)
      (storeTrieds (findRelation drv rel network fuel).2) ∧
    ((∀ t r, drv.possibleRelations rel network.id t = Except.ok r →
        t ⊆ r.alreadyTried) →
      List.Chain' (fun t u => t ⊆ u)
        (storeTrieds (findRelation drv rel network fuel).2)) := by
  obtain ⟨hcase, hchain⟩ := storeTrieds_loop drv rel network fuel []
  refine ⟨hcase, hchain, ?_⟩
  intro hsup
  refine List.Chain'.imp ?_ hchain
  intro t u hq
  rcases hq with ⟨r, hr, hu⟩
  subst hu
  exact hsup t r hr

/-- Witness for C6: a store growing `alreadyTried` from `[]` to `["c1"]`. -/
theorem findRelation_alreadyTried_threaded_witness :
    storeTrieds (findRelation drvGrow Relation.ancestor ⟨"n"⟩ 3).2 = [[], ["c1"]] ∧
    List.Chain' (fun t u => t ⊆ u)
      (storeTrieds (findRelation drvGrow Relation.ancestor ⟨"n"⟩ 3).2) := by
  refine ⟨rfl, ?_⟩
  refine (findRelation_alreadyTried_threaded drvGrow Relation.ancestor ⟨"n"⟩ 3).2.2 ?_
  intro t r h
  cases t with
  | nil =>
    have h2 : (Except.ok (⟨[⟨"c1", ⟨"x", 1⟩⟩], ["c1"]⟩ : CandidateSearchResult) :
        Except String CandidateSearchResult) = Except.ok r := h
    injection h2 with h3
    rw [← h3]
    exact List.nil_subset _
  | cons x xs =>
    have h2 : (Except.ok (⟨[], x :: xs⟩ : CandidateSearchResult) :
        Except String CandidateSearchResult) = Except.ok r := h
    injection h2 with h3
    rw [← h3]
    exact fun y hy => hy

/-- Claim C7: whenever the collector yields a non-empty result, the
orchestrator runs the ancestor-direction search anchored at the collected
ancestor, appends {ancestor: found, descendant: collected ancestor} exactly
when it finds a relation, runs the descendant-direction search anchored at
the collected descendant, appends {ancestor: collected descendant,
descendant: found} exactly when it finds one, and submits the full
accumulated link set in one persist effect, returning the store-assigned
identifiers verbatim. -/
theorem generateNetworkGenealogiesLoad_composition
    (drv : Driver) (fuel : Nat) (networkId : String) (artifacts : List Artifact)
    (collected : CollectArtifactNetworksResult)
    (ancestorFound descendantFound : Option NetworkRef)
    (t1 t2 : List Effect)
    (hc : collectArtifactNetworks (artifactNetworksOf networkId artifacts) =
      some collected)
    (h1 : findRelation drv Relation.ancestor collected.ancestor fuel =
      (some (relationOutcome ancestorFound), t1))
    (h2 : findRelation drv Relation.descendant collected.descendant fuel =
      (some (relationOutcome descendantFound), t2)) :
    generateNetworkGenealogiesLoad drv fuel networkId artifacts =
      (some (Except.ok (drv.load
          (extendLinks collected ancestorFound descendantFound))),
       t1 ++ t2 ++
         [Effect.persist (extendLinks collected ancestorFound descendantFound)]) := by
  cases ancestorFound <;> cases descendantFound <;>
    simp only [relationOutcome] at h1 h2 <;>
    simp [generateNetworkGenealogiesLoad, orchestratorPhase2, hc, h1, h2,
      extendLinks, List.append_assoc]

/-- Witness for C7: two valid observations, an empty-batch store. -/
theorem generateNetworkGenealogiesLoad_composition_witness :
    generateNetworkGenealogiesLoad drvEmpty 1 "1" happyArtifacts =
      (some (Except.ok ["gid"]),
       [Effect.storeQuery Relation.ancestor "A" [],
        Effect.storeQuery Relation.descendant "B" [],
        Effect.persist [⟨⟨"A"⟩, ⟨"B"⟩⟩]]) := by
  have h := generateNetworkGenealogiesLoad_composition drvEmpty 1 "1" happyArtifacts
    collectedHappy none none
    [Effect.storeQuery Relation.ancestor "A" []]
    [Effect.storeQuery Relation.descendant "B" []]
    rfl rfl rfl
  exact h

/-! Helper lemmas for the termination characterization of the search loop. -/

theorem exists_lt_succ_iff {P : Nat → Prop} {n : Nat} :
    (∃ k, k < n + 1 ∧ P k) ↔ P 0 ∨ ∃ k, k < n ∧ P (k + 1) := by
  constructor
  · rintro ⟨k, hk, hp⟩
    cases k with
    | zero => exact Or.inl hp
    | succ k => exact Or.inr ⟨k, by omega, hp⟩
  · rintro (h | ⟨k, hk, hp⟩)
    · exact ⟨0, by omega, h⟩
    · exact ⟨k + 1, by omega, hp⟩

theorem loop_isSome_iff (drv : Driver) (rel : Relation) (network : NetworkRef)
    (hok : ∀ tried, ∃ r,
      drv.possibleRelations rel network.id tried = Except.ok r) :
    ∀ (fuel : Nat) (tried : List String),
      (findRelationLoop drv rel network fuel tried).1.isSome ↔
        ∃ k, k < fuel ∧
          terminatesAt drv rel network (triedFrom drv rel network.id tried k) := by
  intro fuel
  induction fuel with
  | zero =>
    intro tried
    simp [findRelationLoop]
  | succ fuel ih =>
    intro tried
    obtain ⟨r, hq⟩ := hok tried
    have hstep : stepTried drv rel network.id tried = r.alreadyTried := by
      simp [stepTried, hq]
    cases hfind : r.networks.find? (confirms drv) with
    | some c =>
      have hm : (findMatchingCandidateOnChain drv r.networks).1 =
          some (toIdObject c) := by
        rw [findMatching_eq]; simp [hfind]
      rw [loop_succ_found drv rel network fuel tried r (toIdObject c) hq hm]
      constructor
      · intro _
        exact ⟨0, Nat.succ_pos fuel,
          ⟨r, hq, Or.inr ⟨c, List.mem_of_find?_eq_some hfind,
            List.find?_some hfind⟩⟩⟩
      · intro _
        simp
    | none =>
      have hm : (findMatchingCandidateOnChain drv r.networks).1 = none := by
        rw [findMatching_eq]; simp [hfind]
      by_cases hnet : r.networks = []
      · rw [loop_succ_empty drv rel network fuel tried r hq hnet]
        constructor
        · intro _
          exact ⟨0, Nat.succ_pos fuel, ⟨r, hq, Or.inl hnet⟩⟩
        · intro _
          simp
      · rw [loop_succ_next drv rel network fuel tried r hq hm hnet]
        show (findRelationLoop drv rel network fuel r.alreadyTried).1.isSome ↔
          ∃ k, k < fuel + 1 ∧
            terminatesAt drv rel network (triedFrom drv rel network.id tried k)
        rw [ih r.alreadyTried, exists_lt_succ_iff]
        have hshift : ∀ k, triedFrom drv rel network.id tried (k + 1) =
            triedFrom drv rel network.id r.alreadyTried k := by
          intro k
          rw [show triedFrom drv rel network.id tried (k + 1) =
            triedFrom drv rel network.id
              (stepTried drv rel network.id tried) k from rfl, hstep]
        have hnot0 : ¬ terminatesAt drv rel network tried := by
          rintro ⟨r', hr', hcase⟩
          rw [hq] at hr'
          injection hr' with h3
          subst h3
          rcases hcase with hnil | ⟨c, hcmem, hcconf⟩
          · exact hnet hnil
          · exact absurd hcconf (by
              have := List.find?_eq_none.mp hfind c hcmem
              simpa using this)
        constructor
        · rintro ⟨k, hk, hterm⟩
          refine Or.inr ⟨k, hk, ?_⟩
          rw [hshift k]
          exact hterm
        · rintro (h0 | ⟨k, hk, hterm⟩)
          · exact absurd h0 hnot0
          · refine ⟨k, hk, ?_⟩
            rw [← hshift k]
            exact hterm

theorem loop_mono (drv : Driver) (rel : Relation) (network : NetworkRef) :
    ∀ (fuel fuel' : Nat) (tried : List String) (o : FindOutcome),
      fuel ≤ fuel' →
      (findRelationLoop drv rel network fuel tried).1 = some o →
      (findRelationLoop drv rel network fuel' tried).1 = some o := by
  intro fuel
  induction fuel with
  | zero =>
    intro fuel' tried o _ h
    simp [findRelationLoop] at h
  | succ fuel ih =>
    intro fuel' tried o hle h
    cases fuel' with
    | zero => omega
    | succ fuel2 =>
      cases hq : drv.possibleRelations rel network.id tried with
      | error msg =>
        rw [loop_succ_error drv rel network fuel tried msg hq] at h
        rw [loop_succ_error drv rel network fuel2 tried msg hq]
        exact h
      | ok r =>
        cases hm : (findMatchingCandidateOnChain drv r.networks).1 with
        | some m =>
          rw [loop_succ_found drv rel network fuel tried r m hq hm] at h
          rw [loop_succ_found drv rel network fuel2 tried r m hq hm]
          exact h
        | none =>
          by_cases hnet : r.networks = []
          · rw [loop_succ_empty drv rel network fuel tried r hq hnet] at h
            rw [loop_succ_empty drv rel network fuel2 tried r hq hnet]
            exact h
          · rw [loop_succ_next drv rel network fuel tried r hq hm hnet] at h
            rw [loop_succ_next drv rel network fuel2 tried r hq hm hnet]
            exact ih fuel2 r.alreadyTried o (by omega) h

theorem loop_drvLoop_none (rel : Relation) (network : NetworkRef) :
    ∀ (fuel : Nat) (tried : List String),
      (findRelationLoop drvLoop rel network fuel tried).1 = none := by
  intro fuel
  induction fuel with
  | zero => intro tried; rfl
  | succ fuel ih =>
    intro tried
    have hq : drvLoop.possibleRelations rel network.id tried =
        Except.ok ⟨[⟨"c", ⟨"h", 9⟩⟩], tried⟩ := rfl
    have hm : (findMatchingCandidateOnChain drvLoop
        ((⟨[⟨"c", ⟨"h", 9⟩⟩], tried⟩ : CandidateSearchResult).networks)).1 =
        none := rfl
    have hne : ((⟨[⟨"c", ⟨"h", 9⟩⟩], tried⟩ :
        CandidateSearchResult).networks) ≠ [] := by simp
    rw [loop_succ_next drvLoop rel network fuel tried _ hq hm hne]
    exact ih tried

/-- Claim C10: the search loop has no internal bound.  Under a driver whose
store queries always succeed, the fuelled loop finishes within the fuel
exactly when some iteration's exclusion list makes the store answer with an
empty batch or with a batch containing a chain-confirmed candidate; once
finished, more fuel never changes the outcome (the search is a total
function of the driver); and the concrete driver `drvLoop`, which forever
supplies a non-empty unconfirmable batch, exhausts every fuel bound. -/
theorem findRelation_termination_characterization :
    (∀ (drv : Driver) (rel : Relation) (network : NetworkRef) (fuel : Nat),
      (∀ tried, ∃ r,
        drv.possibleRelations rel network.id tried = Except.ok r) →
      ((findRelation drv rel network fuel).1.isSome ↔
        ∃ k, k < fuel ∧
          terminatesAt drv rel network (triedFrom drv rel network.id [] k))) ∧
    (∀ (drv : Driver) (rel : Relation) (network : NetworkRef)
        (fuel fuel' : Nat) (o : FindOutcome), fuel ≤ fuel' →
      (findRelation drv rel network fuel).1 = some o →
      (findRelation drv rel network fuel').1 = some o) ∧
    (∀ (rel : Relation) (network : NetworkRef) (fuel : Nat),
      (findRelation drvLoop rel network fuel).1 = none) := by
  refine ⟨?_, ?_, ?_⟩
  · intro drv rel network fuel hok
    exact loop_isSome_iff drv rel network hok fuel []
  · intro drv rel network fuel fuel' o hle h
    exact loop_mono drv rel network fuel fuel' [] o hle h
  · intro rel network fuel
    exact loop_drvLoop_none rel network fuel []

/-- Witness for C10: an always-empty store terminates with fuel 1, while the
never-exhausting store runs out of any fuel. -/
theorem findRelation_termination_characterization_witness :
    (findRelation drvEmpty Relation.ancestor ⟨"n"⟩ 1).1.isSome = true ∧
    (findRelation drvLoop Relation.ancestor ⟨"n"⟩ 5).1 = none := by
  constructor
  · have h := findRelation_termination_characterization.1 drvEmpty
      Relation.ancestor ⟨"n"⟩ 1 (fun tried => ⟨⟨[], tried⟩, rfl⟩)
    exact h.mpr ⟨0, Nat.one_pos, ⟨⟨[], []⟩, rfl, Or.inl rfl⟩⟩
  · exact findRelation_termination_characterization.2.2 Relation.ancestor ⟨"n"⟩ 5

end TruffleDb
